import Mathlib

/-!
Shallow embedding of the assessment-unlock subsystem of the Pbsc-Ignite
repository (`app/routes/integrated_assessment.py`) and of the adaptive
roadmap rules (`app/routes/roadmap.py`).

Opaque payloads (generated questions, user answers, free-text feedback) and
wall-clock timestamps are not represented: no modelled branch reads them.
Every function below mirrors the control flow of its Python source; database
reads and writes (`find_one` / `update_one`) become explicit state passing on
`ProgressDoc`, and `Option` stands for a possibly missing document or
dictionary key.
-/

namespace PbscIgnite

/-- Assessment record embedded in a daily task of the curriculum document
(`road_map` JSON): the fields read or written by the unlock logic. -/
structure Assessment where
  completed : Bool
  score : Nat
  attempts : Nat
  status : String
  deriving Repr, DecidableEq

/-- A daily task: its `day` number, optional embedded `assessment`, and the
two flags written by the store route. -/
structure DailyTask where
  day : Nat
  assessment : Option Assessment
  assessed : Bool
  assessment_completed : Bool
  deriving Repr, DecidableEq

/-- A week of the phase's learning plan: its `daily_tasks` list. -/
structure Week where
  daily_tasks : List DailyTask
  deriving Repr, DecidableEq

/-- The slice of one phase of the curriculum document that the unlock manager
reads: `learning_plan.weekly_schedule`. -/
structure Roadmap where
  weekly_schedule : List Week
  deriving Repr, DecidableEq

/-- A `learning_progress` document for one (user, phase).  A missing
`unlocked_days` or `completed_assessments` key reads as `[]` in the source
(`.get(key, [])`), so those two are plain lists; `unlock_trigger` has
site-dependent defaults, so a missing key is `none`. -/
structure ProgressDoc where
  user_id : String
  phase_id : Nat
  unlocked_days : List Nat
  completed_assessments : List Nat
  unlock_trigger : Option String
  deriving Repr, DecidableEq

/-- Result dictionary of `AssessmentUnlockManager.reset_unlock_status`
(success case). -/
structure ResetResult where
  before_completed : List Nat
  corrected_unlocked : List Nat
  deriving Repr, DecidableEq

/-- Result dictionary of `check_unlock_status` /
`_evaluate_unlock_conditions`.  The exception fallback of
`check_unlock_status` carries no `completed_assessments` key, hence the
`Option`. -/
structure CheckResult where
  unlocked_days : List Nat
  completed_assessments : Option (List Nat)
  current_day : Nat
  unlock_trigger : String
  deriving Repr, DecidableEq

/-- Python's `assessment.get('completed') == True and
assessment.get('score', 0) >= 70` on a task's optional assessment dict. -/
def assessmentPassed (a? : Option Assessment) : Bool :=
  match a? with
  | some a => a.completed && decide (70 ≤ a.score)
  | none => false

/-- The day numbers collected by `reset_unlock_status`: every task of every
week whose assessment is completed with score at least 70, in schedule
order. -/
def collectCompleted (rm : Roadmap) : List Nat :=
  rm.weekly_schedule.flatMap fun w =>
    (w.daily_tasks.filter fun t => assessmentPassed t.assessment).map fun t => t.day

/-- One step of the unlock-list build in `reset_unlock_status`:
`if next_day not in corrected_unlocked: corrected_unlocked.append(next_day)`
(no day cap at this site). -/
def resetAddNext (acc : List Nat) (d : Nat) : List Nat :=
  if d + 1 ∈ acc then acc else acc ++ [d + 1]

/-- One step of the unlock-list build in `_evaluate_unlock_conditions`:
`if next_day not in correct_unlocked and next_day <= 30:
correct_unlocked.append(next_day)` (day cap 30). -/
def evalAddNext (acc : List Nat) (d : Nat) : List Nat :=
  if d + 1 ∉ acc ∧ d + 1 ≤ 30 then acc ++ [d + 1] else acc

/-- Python's `sorted` on a list of ints (ascending, stable). -/
def pySorted (l : List Nat) : List Nat :=
  l.insertionSort (· ≤ ·)

/-- `AssessmentUnlockManager.reset_unlock_status`, success case: scan the
phase's weekly schedule for actually passed assessments and rebuild the
unlock list as `[1]` followed by each successor day, in sorted order,
without duplicates. -/
def resetUnlockStatus (rm : Roadmap) : ResetResult :=
  let actually := collectCompleted rm
  { before_completed := actually
    corrected_unlocked := (pySorted actually).foldl resetAddNext [1] }

/-- The `update_one(..., {"$set": {...}}, upsert=True)` issued by
`reset_unlock_status`: overwrite the unlock fields of the existing document,
or create the document when none exists. -/
def resetApply (rm : Roadmap) (uid : String) (pid : Nat) (doc? : Option ProgressDoc) :
    ProgressDoc :=
  let r := resetUnlockStatus rm
  match doc? with
  | some doc =>
    { doc with
      unlocked_days := r.corrected_unlocked
      completed_assessments := r.before_completed
      unlock_trigger := some "reset_corrected" }
  | none =>
    { user_id := uid
      phase_id := pid
      unlocked_days := r.corrected_unlocked
      completed_assessments := r.before_completed
      unlock_trigger := some "reset_corrected" }

/-- One call of the manual reset operation: the returned dictionary together
with the progress document it leaves in the database. -/
def resetCall (rm : Roadmap) (uid : String) (pid : Nat) (doc? : Option ProgressDoc) :
    ResetResult × ProgressDoc :=
  (resetUnlockStatus rm, resetApply rm uid pid doc?)

/-- The validation step of `_evaluate_unlock_conditions`: when
`len(unlocked_days) > len(completed_assessments) + 1`, rebuild both lists via
`reset_unlock_status` (which also persists); otherwise keep the document's
lists.  Returns (unlocked, completed, database state). -/
def afterValidation (rm : Roadmap) (doc : ProgressDoc) :
    List Nat × List Nat × ProgressDoc :=
  if doc.completed_assessments.length + 1 < doc.unlocked_days.length then
    let r := resetUnlockStatus rm
    (r.corrected_unlocked, r.before_completed,
      resetApply rm doc.user_id doc.phase_id (some doc))
  else
    (doc.unlocked_days, doc.completed_assessments, doc)

/-- The `ENSURE Day 1` step: when the unlocked list is empty or misses day 1
it is replaced by `[1]` and persisted with trigger `first_unlock`. -/
def ensureDayOne (u : List Nat) (db : ProgressDoc) : List Nat × ProgressDoc :=
  if u = [] ∨ 1 ∉ u then
    ([1], { db with unlocked_days := [1], unlock_trigger := some "first_unlock" })
  else
    (u, db)

/-- The `correct_unlocked` list of `_evaluate_unlock_conditions`: `[1]`, then
for each completed day in sorted order its successor, capped at day 30. -/
def buildCorrect (completed : List Nat) : List Nat :=
  (pySorted completed).foldl evalAddNext [1]

/-- The correction step: when the current unlocked list differs from
`correct_unlocked` as a set, replace it by `sorted(correct_unlocked)` and
persist with trigger `corrected`. -/
def correctStep (u correct : List Nat) (db : ProgressDoc) : List Nat × ProgressDoc :=
  if u.toFinset ≠ correct.toFinset then
    (pySorted correct,
      { db with unlocked_days := pySorted correct, unlock_trigger := some "corrected" })
  else
    (u, db)

/-- The `current_day` computation: first day of `sorted(unlocked_days)` not
yet completed; a falsy result (`None` or `0`) falls back to
`max(unlocked_days) if unlocked_days else 1`. -/
def currentDayOf (u completed : List Nat) : Nat :=
  let cand := (pySorted u).find? fun d => !(decide (d ∈ completed))
  let fb := if u = [] then 1 else u.foldl max 0
  match cand with
  | some d => if d = 0 then fb else d
  | none => fb

/-- `AssessmentUnlockManager._evaluate_unlock_conditions`: validation (with
possible rebuild), day-1 guarantee, sequential correction, current-day
computation.  Returns the result dictionary and the database state it leaves
behind. -/
def evaluateUnlockConditions (rm : Roadmap) (doc : ProgressDoc) :
    CheckResult × ProgressDoc :=
  let v := afterValidation rm doc
  let e := ensureDayOne v.1 v.2.2
  let correct := buildCorrect v.2.1
  let f := correctStep e.1 correct e.2
  ({ unlocked_days := f.1
     completed_assessments := some v.2.1
     current_day := currentDayOf f.1 v.2.1
     unlock_trigger := doc.unlock_trigger.getD "sequential" }, f.2)

/-- The progress document inserted by `check_unlock_status` when none exists
yet (lazy creation on the first status check). -/
def initProgressDoc (uid : String) (pid : Nat) : ProgressDoc :=
  { user_id := uid
    phase_id := pid
    unlocked_days := []
    completed_assessments := []
    unlock_trigger := some "none" }

/-- `AssessmentUnlockManager.check_unlock_status`, regular path: load or
lazily create the progress document, then evaluate unlock conditions. -/
def checkUnlockStatus (rm : Roadmap) (uid : String) (pid : Nat)
    (doc? : Option ProgressDoc) : CheckResult × ProgressDoc :=
  let doc := doc?.getD (initProgressDoc uid pid)
  evaluateUnlockConditions rm doc

/-- The dictionary returned by `check_unlock_status` from its exception
handler: `{"unlocked_days": [1], "current_day": 1, "unlock_trigger":
"default"}` (no `completed_assessments` key). -/
def checkUnlockFallback : CheckResult :=
  { unlocked_days := [1]
    completed_assessments := none
    current_day := 1
    unlock_trigger := "default" }

/-- `check_unlock_status` including its `try/except` shell: `fail` encodes
that some internal step raised, in which case the fallback dictionary is
returned. -/
def checkUnlockStatusTotal (fail : Bool) (rm : Roadmap) (uid : String) (pid : Nat)
    (doc? : Option ProgressDoc) : CheckResult :=
  if fail then checkUnlockFallback else (checkUnlockStatus rm uid pid doc?).1

/-- Result dictionary of `AssessmentUnlockManager.trigger_automatic_unlock`:
its `status` value, and `unlocked_day` when present. -/
structure UnlockResult where
  status : String
  unlocked_day : Option Nat
  deriving Repr, DecidableEq

/-- `AssessmentUnlockManager.trigger_automatic_unlock`: read the phase's
progress document; when the completed day is recorded and its successor not
yet unlocked, append the successor and persist with trigger
`auto_sequential`.  Returns the result dictionary and the database state. -/
def triggerAutomaticUnlock (doc? : Option ProgressDoc) (completed_day : Nat) :
    UnlockResult × Option ProgressDoc :=
  match doc? with
  | none => ({ status := "error", unlocked_day := none }, none)
  | some doc =>
    if completed_day ∈ doc.completed_assessments then
      let next_day := completed_day + 1
      if next_day ∉ doc.unlocked_days then
        ({ status := "success", unlocked_day := some next_day },
          some { doc with
                 unlocked_days := doc.unlocked_days ++ [next_day]
                 unlock_trigger := some "auto_sequential" })
      else
        ({ status := "already_unlocked", unlocked_day := none }, some doc)
    else
      ({ status := "error", unlocked_day := none }, some doc)

/-- The `update_one(..., {"$addToSet": {"completed_assessments": day}},
upsert=True)` issued on a passing submission (and by the store route): add
the day to the set, creating the document when missing. -/
def addCompletedDay (doc? : Option ProgressDoc) (uid : String) (pid day : Nat) :
    ProgressDoc :=
  match doc? with
  | some doc =>
    { doc with
      completed_assessments :=
        if day ∈ doc.completed_assessments then doc.completed_assessments
        else doc.completed_assessments ++ [day] }
  | none =>
    { user_id := uid
      phase_id := pid
      unlocked_days := []
      completed_assessments := [day]
      unlock_trigger := none }

/-- Nested lookup
`roadmap['phases'][pid]['learning_plan']['weekly_schedule'][wi]['daily_tasks'][ti]`
inside one phase; `none` when an index is out of range (a Python
`KeyError`/`IndexError`). -/
def getTask? (rm : Roadmap) (wi ti : Nat) : Option DailyTask :=
  match rm.weekly_schedule.get? wi with
  | some w => w.daily_tasks.get? ti
  | none => none

/-- Write a task back at position (week `wi`, task `ti`) of the schedule. -/
def setTask (rm : Roadmap) (wi ti : Nat) (t : DailyTask) : Roadmap :=
  match rm.weekly_schedule.get? wi with
  | some w => { weekly_schedule := rm.weekly_schedule.set wi ⟨w.daily_tasks.set ti t⟩ }
  | none => rm

/-- Previous attempt count of a task: `existing.get('attempts', 0)` when an
assessment dict exists, `0` otherwise. -/
def prevAttempts (t : DailyTask) : Nat :=
  match t.assessment with
  | some a => a.attempts
  | none => 0

/-- The assessment record built by `submit_assessment`: completed exactly
when passed (`score >= 70`), attempts `1` or previous attempts plus one when
an assessment dict already exists. -/
def submitRecord (score : Nat) (existing : Option Assessment) : Assessment :=
  let passed := decide (70 ≤ score)
  { completed := passed
    score := score
    status := if passed then "passed" else "failed"
    attempts :=
      match existing with
      | some a => a.attempts + 1
      | none => 1 }

/-- The assessment record built by the `/api/assessment/store` route:
`completed` is unconditionally `True`, `score` comes from the submitted
result (default 0), attempts are incremented. -/
def storeRecord (resultScore : Nat) (existing : Option Assessment) : Assessment :=
  { completed := true
    score := resultScore
    status := "completed"
    attempts :=
      (match existing with
       | some a => a.attempts
       | none => 0) + 1 }

/-- Everything `submit_assessment` leaves behind and reports: the rewritten
curriculum document, the progress document, and the response fields
`passed` / `attempts` / `score` / `unlock_result`. -/
structure SubmitOutcome where
  roadmap : Roadmap
  progress : Option ProgressDoc
  passed : Bool
  attempts : Nat
  score : Nat
  unlock_result : Option UnlockResult
  deriving Repr, DecidableEq

/-- The `/api/assessment/submit` route after evaluation produced `score`:
store the record into the nested roadmap structure, and only on a pass add
the day to `completed_assessments` and trigger the automatic unlock.  `none`
models the storage-error response (task indexing raised before any write). -/
def submitAssessment (rm : Roadmap) (doc? : Option ProgressDoc) (uid : String)
    (pid day wi ti score : Nat) : Option SubmitOutcome :=
  match getTask? rm wi ti with
  | none => none
  | some t =>
    let passed := decide (70 ≤ score)
    let record := submitRecord score t.assessment
    let rm' := setTask rm wi ti { t with assessment := some record }
    if passed then
      let doc1 := addCompletedDay doc? uid pid day
      let tr := triggerAutomaticUnlock (some doc1) day
      some { roadmap := rm'
             progress := tr.2
             passed := passed
             attempts := record.attempts
             score := score
             unlock_result := some tr.1 }
    else
      some { roadmap := rm'
             progress := doc?
             passed := passed
             attempts := record.attempts
             score := score
             unlock_result := none }

/-- The `/api/assessment/store` route: write the store record (completed set
to `True` regardless of score) into the nested structure, mark the task
assessed, and add the day to `completed_assessments` via `$addToSet`.
`none` models the error response on bad indices. -/
def storeAssessment (rm : Roadmap) (doc? : Option ProgressDoc) (uid : String)
    (pid day wi ti resultScore : Nat) : Option (Roadmap × ProgressDoc) :=
  match getTask? rm wi ti with
  | none => none
  | some t =>
    let record := storeRecord resultScore t.assessment
    let rm' := setTask rm wi ti
      { t with assessment := some record, assessed := true, assessment_completed := true }
    some (rm', addCompletedDay doc? uid pid day)

/-- The fields of a progress analysis read by
`AdaptiveRoadmapManager._generate_adaptations`. -/
structure ProgressAnalysis where
  learning_velocity : String
  deriving Repr, DecidableEq

/-- The fields of a delay analysis read by `_generate_adaptations`. -/
structure DelayAnalysis where
  risk_level : String
  total_days_behind : Nat
  deriving Repr, DecidableEq

/-- One adaptation entry, identified by its `type` value. -/
structure Adaptation where
  type : String
  deriving Repr, DecidableEq

/-- The adaptations dictionary produced by `_generate_adaptations`. -/
structure Adaptations where
  schedule_adjustments : List Adaptation
  content_modifications : List Adaptation
  difficulty_changes : List Adaptation
  timeline_extensions : List Adaptation
  catch_up_plans : List Adaptation
  deriving Repr, DecidableEq

/-- `AdaptiveRoadmapManager._generate_adaptations`: slow velocity or
high/critical risk add `extend_timeline` and `simplify_content`; otherwise
(`elif`) fast velocity adds `increase_challenge`; any positive delay adds a
`weekend_intensive` catch-up plan. -/
def generateAdaptations (pa : ProgressAnalysis) (da : DelayAnalysis) : Adaptations :=
  let base : Adaptations := ⟨[], [], [], [], []⟩
  let a1 :=
    if pa.learning_velocity = "slow" ∨ da.risk_level = "high" ∨ da.risk_level = "critical" then
      { base with
        schedule_adjustments := base.schedule_adjustments ++ [⟨"extend_timeline"⟩]
        content_modifications := base.content_modifications ++ [⟨"simplify_content"⟩] }
    else if pa.learning_velocity = "fast" then
      { base with difficulty_changes := base.difficulty_changes ++ [⟨"increase_challenge"⟩] }
    else
      base
  if 0 < da.total_days_behind then
    { a1 with catch_up_plans := a1.catch_up_plans ++ [⟨"weekend_intensive"⟩] }
  else
    a1

/-- Program counter and snapshot register of one in-flight passing
submission in the interleaving model: step 0 is the atomic `$addToSet` of the
completed day, step 1 the `find_one` snapshot read inside
`trigger_automatic_unlock`, step 2 its conditional `$set` write of the
unlocked list; 3 is done. -/
structure RaceProc where
  pc : Nat
  snap : ProgressDoc
  deriving Repr, DecidableEq

/-- One atomic database step of a passing submission for day `day`.  The
write at step 2 replays `trigger_automatic_unlock` against the snapshot: it
rewrites `unlocked_days` with the snapshot's list plus the next day, exactly
as the source's read-modify-write does. -/
def raceStep (day : Nat) (p : RaceProc) (cur : ProgressDoc) : RaceProc × ProgressDoc :=
  match p.pc with
  | 0 => ({ p with pc := 1 }, addCompletedDay (some cur) cur.user_id cur.phase_id day)
  | 1 => ({ p with pc := 2, snap := cur }, cur)
  | 2 =>
    ({ p with pc := 3 },
      if day ∈ p.snap.completed_assessments ∧ day + 1 ∉ p.snap.unlocked_days then
        { cur with
          unlocked_days := p.snap.unlocked_days ++ [day + 1]
          unlock_trigger := some "auto_sequential" }
      else cur)
  | _ => (p, cur)

/-- Run two concurrent passing submissions for the same `day` under a given
interleaving: `false` schedules the first process, `true` the second. -/
def raceRun (day : Nat) (sched : List Bool) (doc : ProgressDoc) : ProgressDoc :=
  let start : RaceProc := { pc := 0, snap := doc }
  let result := sched.foldl
    (fun st choice =>
      match st with
      | (p1, p2, cur) =>
        if choice then
          let s := raceStep day p2 cur
          (p1, s.1, s.2)
        else
          let s := raceStep day p1 cur
          (s.1, p2, s.2))
    (start, start, doc)
  result.2.2

/-- All boolean lists of length `n`. -/
def allBoolLists : Nat → List (List Bool)
  | 0 => [[]]
  | n + 1 => (allBoolLists n).flatMap fun l => [false :: l, true :: l]

/-- All interleavings of two processes of three atomic steps each. -/
def raceSchedules : List (List Bool) :=
  (allBoolLists 6).filter fun l => l.count true = 3

/-- Specification-level description of a passed day (`Modelled from the
spec:` the set of day numbers whose embedded assessment has `completed ==
true` and `score ≥ 70`), used to compare the reconciliation rebuild against
the spec's words. -/
def specPassingDay (rm : Roadmap) (d : Nat) : Prop :=
  ∃ w ∈ rm.weekly_schedule, ∃ t ∈ w.daily_tasks,
    t.day = d ∧ ∃ a, t.assessment = some a ∧ a.completed = true ∧ 70 ≤ a.score

/-- Curriculum fixture: one phase whose single task is day 30 with a passed
assessment (score 85). -/
def rmDay30 : Roadmap := ⟨[⟨[⟨30, some ⟨true, 85, 1, "passed"⟩, false, false⟩]⟩]⟩

/-- Curriculum fixture: one phase with a single day-1 task and no assessment
yet. -/
def rmOneTask : Roadmap := ⟨[⟨[⟨1, none, false, false⟩]⟩]⟩

/-- The day-1 task of `rmOneTask`. -/
def oneTask : DailyTask := ⟨1, none, false, false⟩

/-- Progress fixture with a completed day-30 assessment recorded but only
day 1 unlocked. -/
def docDay30 : ProgressDoc := ⟨"u", 1, [1], [30], some "sequential"⟩

/-- Progress fixture after one passed day: days 1 and 2 unlocked, day 1
completed. -/
def docAfterDayOne : ProgressDoc := ⟨"u", 1, [1, 2], [1], some "sequential"⟩

/-- Progress fixture for the concurrency scenario: days 1-3 unlocked, days 1
and 2 completed, day 3 about to be submitted twice. -/
def raceInitDoc : ProgressDoc := ⟨"u", 1, [1, 2, 3], [1, 2], some "sequential"⟩

/-- Progress-analysis fixture with fast learning velocity. -/
def paFast : ProgressAnalysis := ⟨"fast"⟩

/-- Delay-analysis fixture with high risk and five days behind. -/
def daHigh : DelayAnalysis := ⟨"high", 5⟩

/-- Delay-analysis fixture with low risk and no delay. -/
def daLow : DelayAnalysis := ⟨"low", 0⟩

lemma mem_pySorted {l : List Nat} {x : Nat} : x ∈ pySorted l ↔ x ∈ l := by
  unfold pySorted
  exact List.mem_insertionSort _

lemma mem_evalAddNext_of_mem {acc : List Nat} {x d : Nat} (h : x ∈ acc) :
    x ∈ evalAddNext acc d := by
  unfold evalAddNext
  split
  · exact List.mem_append_left _ h
  · exact h

lemma succ_mem_evalAddNext {acc : List Nat} {d : Nat} (h : d + 1 ≤ 30) :
    d + 1 ∈ evalAddNext acc d := by
  unfold evalAddNext
  split
  · exact List.mem_append_right _ (List.mem_singleton.mpr rfl)
  · next hc =>
    by_cases hm : d + 1 ∈ acc
    · exact hm
    · exact absurd ⟨hm, h⟩ hc

lemma mem_foldl_evalAddNext_of_mem {l acc : List Nat} {x : Nat} (h : x ∈ acc) :
    x ∈ l.foldl evalAddNext acc := by
  induction l generalizing acc with
  | nil => exact h
  | cons a l ih => exact ih (mem_evalAddNext_of_mem h)

lemma succ_mem_foldl_evalAddNext {l acc : List Nat} {d : Nat}
    (hd : d ∈ l) (h30 : d + 1 ≤ 30) : d + 1 ∈ l.foldl evalAddNext acc := by
  induction l generalizing acc with
  | nil => cases hd
  | cons a l ih =>
    rcases List.mem_cons.mp hd with h | h
    · subst h
      rw [List.foldl_cons]
      exact mem_foldl_evalAddNext_of_mem (succ_mem_evalAddNext h30)
    · exact ih h

lemma one_mem_buildCorrect (c : List Nat) : 1 ∈ buildCorrect c :=
  mem_foldl_evalAddNext_of_mem (List.mem_singleton.mpr rfl)

lemma succ_mem_buildCorrect {c : List Nat} {d : Nat} (hd : d ∈ c) (h30 : d + 1 ≤ 30) :
    d + 1 ∈ buildCorrect c :=
  succ_mem_foldl_evalAddNext (mem_pySorted.mpr hd) h30

lemma mem_correctStep_iff {u correct : List Nat} {db : ProgressDoc} {x : Nat} :
    x ∈ (correctStep u correct db).1 ↔ x ∈ correct := by
  unfold correctStep
  split
  · exact mem_pySorted
  · next h =>
    have h' : u.toFinset = correct.toFinset := not_not.mp h
    constructor
    · intro hx
      exact List.mem_toFinset.mp (h' ▸ List.mem_toFinset.mpr hx)
    · intro hx
      exact List.mem_toFinset.mp (h'.symm ▸ List.mem_toFinset.mpr hx)

lemma evaluate_unlocked_eq (rm : Roadmap) (doc : ProgressDoc) :
    (evaluateUnlockConditions rm doc).1.unlocked_days =
      (correctStep (ensureDayOne (afterValidation rm doc).1 (afterValidation rm doc).2.2).1
        (buildCorrect (afterValidation rm doc).2.1)
        (ensureDayOne (afterValidation rm doc).1 (afterValidation rm doc).2.2).2).1 := rfl

lemma evaluate_completed_eq (rm : Roadmap) (doc : ProgressDoc) :
    (evaluateUnlockConditions rm doc).1.completed_assessments =
      some (afterValidation rm doc).2.1 := rfl

lemma one_mem_evaluate_unlocked (rm : Roadmap) (doc : ProgressDoc) :
    1 ∈ (evaluateUnlockConditions rm doc).1.unlocked_days := by
  rw [evaluate_unlocked_eq]
  exact mem_correctStep_iff.mpr (one_mem_buildCorrect _)

lemma succ_mem_evaluate_unlocked {rm : Roadmap} {doc : ProgressDoc} {d : Nat} {c : List Nat}
    (hc : (evaluateUnlockConditions rm doc).1.completed_assessments = some c)
    (hd : d ∈ c) (h30 : d + 1 ≤ 30) :
    d + 1 ∈ (evaluateUnlockConditions rm doc).1.unlocked_days := by
  rw [evaluate_completed_eq] at hc
  rw [evaluate_unlocked_eq]
  exact mem_correctStep_iff.mpr
    (succ_mem_buildCorrect (by rw [Option.some_inj.mp hc]; exact hd) h30)

lemma mem_resetAddNext_iff {acc : List Nat} {x d : Nat} :
    x ∈ resetAddNext acc d ↔ x ∈ acc ∨ x = d + 1 := by
  unfold resetAddNext
  split
  · next hmem =>
    constructor
    · exact Or.inl
    · rintro (h | h)
      · exact h
      · exact h ▸ hmem
  · simp [List.mem_append]

lemma mem_foldl_resetAddNext_iff {l acc : List Nat} {x : Nat} :
    x ∈ l.foldl resetAddNext acc ↔ x ∈ acc ∨ ∃ d ∈ l, x = d + 1 := by
  induction l generalizing acc with
  | nil => simp
  | cons a l ih =>
    rw [List.foldl_cons, ih, mem_resetAddNext_iff]
    simp only [List.mem_cons]
    constructor
    · rintro ((h | h) | ⟨d, hd, he⟩)
      · exact Or.inl h
      · exact Or.inr ⟨a, Or.inl rfl, h⟩
      · exact Or.inr ⟨d, Or.inr hd, he⟩
    · rintro (h | ⟨d, hd | hd, he⟩)
      · exact Or.inl (Or.inl h)
      · exact Or.inl (Or.inr (hd ▸ he))
      · exact Or.inr ⟨d, hd, he⟩

lemma assessmentPassed_iff {a? : Option Assessment} :
    assessmentPassed a? = true ↔
      ∃ a, a? = some a ∧ a.completed = true ∧ 70 ≤ a.score := by
  cases a? with
  | none => simp [assessmentPassed]
  | some a => simp [assessmentPassed, Bool.and_eq_true, decide_eq_true_iff]

lemma mem_collectCompleted_iff {rm : Roadmap} {d : Nat} :
    d ∈ collectCompleted rm ↔ specPassingDay rm d := by
  unfold collectCompleted specPassingDay
  simp only [List.mem_flatMap, List.mem_map, List.mem_filter, assessmentPassed_iff]
  constructor
  · rintro ⟨w, hw, t, ⟨ht, a, ha, hca, hsa⟩, hd⟩
    exact ⟨w, hw, t, ht, hd, a, ha, hca, hsa⟩
  · rintro ⟨w, hw, t, ht, hd, a, ha, hca, hsa⟩
    exact ⟨w, hw, t, ⟨ht, a, ha, hca, hsa⟩, hd⟩

lemma get?_set_self {α : Type} (l : List α) (i : Nat) (a b : α)
    (h : l.get? i = some b) : (l.set i a).get? i = some a := by
  induction l generalizing i with
  | nil => simp at h
  | cons x xs ih =>
    cases i with
    | zero => simp [List.set]
    | succ n =>
      simp only [List.set, List.get?_cons_succ] at h ⊢
      exact ih n h

lemma getTask?_setTask {rm : Roadmap} {wi ti : Nat} {t0 t : DailyTask}
    (h : getTask? rm wi ti = some t0) :
    getTask? (setTask rm wi ti t) wi ti = some t := by
  unfold getTask? at h ⊢
  unfold setTask
  cases hw : rm.weekly_schedule.get? wi with
  | none => rw [hw] at h; cases h
  | some w =>
    rw [hw] at h
    simp only [hw]
    rw [get?_set_self _ _ _ _ hw]
    exact get?_set_self _ _ _ _ h

lemma submitRecord_attempts (score : Nat) (t : DailyTask) :
    (submitRecord score t.assessment).attempts = prevAttempts t + 1 := by
  cases h : t.assessment <;> simp [submitRecord, prevAttempts, h]

/-- C3: for every learner and phase, the record returned by
`check_unlock_status` contains day 1 in `unlocked_days` — on the regular
path (including the very first call, where the progress document is created
lazily with empty lists, `doc? = none`) and on the internal-failure
fallback. -/
theorem check_unlock_status_day_one :
    (∀ rm uid pid doc?, 1 ∈ (checkUnlockStatus rm uid pid doc?).1.unlocked_days) ∧
    1 ∈ checkUnlockFallback.unlocked_days := by
  constructor
  · intro rm uid pid doc?
    exact one_mem_evaluate_unlocked rm (doc?.getD (initProgressDoc uid pid))
  · decide

/-- C10: `check_unlock_status` is total at the public interface: every call,
failing or not, yields a record with day 1 unlocked, and on an internal
failure the result is exactly the default record with `unlocked_days = [1]`,
`current_day = 1` and `unlock_trigger = "default"`. -/
theorem check_unlock_status_total_contract :
    ∀ fail rm uid pid doc?,
      1 ∈ (checkUnlockStatusTotal fail rm uid pid doc?).unlocked_days ∧
      (fail = true →
        checkUnlockStatusTotal fail rm uid pid doc? = checkUnlockFallback ∧
        checkUnlockFallback.unlocked_days = [1] ∧
        checkUnlockFallback.current_day = 1 ∧
        checkUnlockFallback.unlock_trigger = "default") := by
  intro fail rm uid pid doc?
  cases fail with
  | true =>
    exact ⟨show 1 ∈ checkUnlockFallback.unlocked_days by decide,
      fun _ => ⟨rfl, rfl, rfl, rfl⟩⟩
  | false =>
    refine ⟨?_, fun h => by cases h⟩
    exact one_mem_evaluate_unlocked rm (doc?.getD (initProgressDoc uid pid))

theorem check_unlock_status_total_contract_witness :
    1 ∈ (checkUnlockStatusTotal true rmOneTask "u" 1 none).unlocked_days ∧
    checkUnlockStatusTotal true rmOneTask "u" 1 none = checkUnlockFallback :=
  ⟨(check_unlock_status_total_contract true rmOneTask "u" 1 none).1,
   ((check_unlock_status_total_contract true rmOneTask "u" 1 none).2 rfl).1⟩

/-- C2 (amended): after any `check_unlock_status`, for every day `d` of the
returned `completed_assessments` whose successor is within the day cap 30,
`d + 1` is a member of `unlocked_days`.  (The day `d` itself need not be
unlocked, and successors beyond day 30 are not added: see the
counterexample.) -/
theorem completed_implies_next_unlocked :
    ∀ rm uid pid doc? c d,
      (checkUnlockStatus rm uid pid doc?).1.completed_assessments = some c →
      d ∈ c → d + 1 ≤ 30 →
      d + 1 ∈ (checkUnlockStatus rm uid pid doc?).1.unlocked_days := by
  intro rm uid pid doc? c d hc hd h30
  exact succ_mem_evaluate_unlocked hc hd h30

theorem completed_implies_next_unlocked_witness :
    2 ∈ (checkUnlockStatus rmOneTask "u" 1 (some docAfterDayOne)).1.unlocked_days :=
  completed_implies_next_unlocked rmOneTask "u" 1 (some docAfterDayOne) [1] 1
    (by decide) (by decide) (by decide)

/-- C2 counterexample: with day 30 recorded as completed and only day 1
unlocked, `check_unlock_status` returns `completed_assessments = [30]` while
neither 30 nor 31 is in `unlocked_days`: both conjuncts of the claimed
invariant fail at `d = 30`. -/
theorem completed_not_subset_unlocked_counterexample :
    (checkUnlockStatus rmOneTask "u" 1 (some docDay30)).1.completed_assessments = some [30] ∧
    30 ∉ (checkUnlockStatus rmOneTask "u" 1 (some docDay30)).1.unlocked_days ∧
    31 ∉ (checkUnlockStatus rmOneTask "u" 1 (some docDay30)).1.unlocked_days := by
  decide

/-- C7: `reset_unlock_status` is idempotent — for a fixed curriculum
document, a second consecutive call returns the same result dictionary and
leaves the persisted progress document exactly as the first call did. -/
theorem reset_unlock_status_idempotent :
    ∀ rm uid pid doc?,
      resetCall rm uid pid (some (resetCall rm uid pid doc?).2) =
        resetCall rm uid pid doc? := by
  intro rm uid pid doc?
  cases doc? <;> rfl

/-- C6 (amended): the reconciliation rebuild of `reset_unlock_status`
collects exactly the day numbers whose embedded assessment has `completed ==
true` and `score ≥ 70`, and derives `unlocked_days` as exactly
`{1} ∪ {d+1 : d ∈ completed_assessments}` — with no day cap at this site
(the cap 30 is applied only when the rebuild result is re-derived inside
`check_unlock_status`). -/
theorem reset_rebuild_characterization :
    ∀ rm d x,
      (d ∈ (resetUnlockStatus rm).before_completed ↔ specPassingDay rm d) ∧
      (x ∈ (resetUnlockStatus rm).corrected_unlocked ↔
        x = 1 ∨ ∃ e ∈ (resetUnlockStatus rm).before_completed, x = e + 1) := by
  intro rm d x
  constructor
  · exact mem_collectCompleted_iff
  · show x ∈ (pySorted (collectCompleted rm)).foldl resetAddNext [1] ↔ _
    rw [mem_foldl_resetAddNext_iff]
    simp only [List.mem_singleton]
    constructor
    · rintro (h | ⟨e, he, hx⟩)
      · exact Or.inl h
      · exact Or.inr ⟨e, mem_pySorted.mp he, hx⟩
    · rintro (h | ⟨e, he, hx⟩)
      · exact Or.inl h
      · exact Or.inr ⟨e, mem_pySorted.mpr he, hx⟩

/-- C6 counterexample: rebuilding from a curriculum whose only passed
assessment is on day 30 yields `corrected_unlocked ∋ 31`, although the
claimed derivation `{1} ∪ {d+1 : d ∈ completed, d+1 ≤ 30}` excludes 31: the
rebuild applies no day cap. -/
theorem reset_day_cap_counterexample :
    31 ∈ (resetUnlockStatus rmDay30).corrected_unlocked ∧
    ¬ (31 = 1 ∨ ∃ d ∈ (resetUnlockStatus rmDay30).before_completed,
        31 = d + 1 ∧ d + 1 ≤ 30) := by
  decide

/-- C1 (amended): the assessment record written by `submit_assessment` has
`completed = true` exactly when its score is at least 70, and that record is
what lands in the curriculum document; the record written by the store route
has `completed = true` unconditionally, so for it the claimed equivalence
fails whenever the stored score is below 70. -/
theorem assessment_record_completed_flag :
    ∀ rm doc? uid pid day wi ti score t,
      getTask? rm wi ti = some t →
      ((submitRecord score t.assessment).completed = true ↔
        70 ≤ (submitRecord score t.assessment).score) ∧
      (∀ o, submitAssessment rm doc? uid pid day wi ti score = some o →
        getTask? o.roadmap wi ti =
          some { t with assessment := some (submitRecord score t.assessment) }) ∧
      (storeRecord score t.assessment).completed = true ∧
      (∀ p, storeAssessment rm doc? uid pid day wi ti score = some p →
        getTask? p.1 wi ti =
          some { t with
                 assessment := some (storeRecord score t.assessment)
                 assessed := true
                 assessment_completed := true }) := by
  intro rm doc? uid pid day wi ti score t ht
  refine ⟨by simp [submitRecord, decide_eq_true_iff], ?_, rfl, ?_⟩
  · intro o ho
    simp only [submitAssessment, ht] at ho
    split at ho <;>
      · obtain rfl := Option.some_inj.mp ho
        exact getTask?_setTask ht
  · intro p hp
    simp only [storeAssessment, ht] at hp
    obtain rfl := Option.some_inj.mp hp
    exact getTask?_setTask ht

theorem assessment_record_completed_flag_witness :
    ((submitRecord 85 oneTask.assessment).completed = true ↔
      70 ≤ (submitRecord 85 oneTask.assessment).score) ∧
    (storeRecord 85 oneTask.assessment).completed = true :=
  ⟨(assessment_record_completed_flag rmOneTask none "u" 1 1 0 0 85 oneTask rfl).1,
   (assessment_record_completed_flag rmOneTask none "u" 1 1 0 0 85 oneTask rfl).2.2.1⟩

/-- C1 counterexample: storing an assessment result with score 50 writes a
record with `completed = true` and `score = 50 < 70` into the curriculum
document, refuting `completed = true ⇔ score ≥ 70` for the store
operation. -/
theorem store_breaks_completed_invariant_counterexample :
    storeAssessment rmOneTask none "u" 1 1 0 0 50 =
      some (setTask rmOneTask 0 0
        { oneTask with
          assessment := some (storeRecord 50 none)
          assessed := true
          assessment_completed := true },
        addCompletedDay none "u" 1 1) ∧
    (storeRecord 50 none).completed = true ∧ (storeRecord 50 none).score < 70 :=
  ⟨rfl, rfl, by decide⟩

/-- C4: `submit_assessment` reports `passed = true` exactly when the
evaluated score is at least 70; in particular score 70 passes and score 69
fails. -/
theorem submit_passed_iff_seventy :
    (∀ rm doc? uid pid day wi ti score t,
      getTask? rm wi ti = some t →
      (submitAssessment rm doc? uid pid day wi ti score).map SubmitOutcome.passed =
        some (decide (70 ≤ score))) ∧
    (submitAssessment rmOneTask none "u" 1 1 0 0 70).map SubmitOutcome.passed = some true ∧
    (submitAssessment rmOneTask none "u" 1 1 0 0 69).map SubmitOutcome.passed = some false := by
  refine ⟨?_, by decide, by decide⟩
  intro rm doc? uid pid day wi ti score t ht
  simp only [submitAssessment, ht]
  split <;> rfl

theorem submit_passed_iff_seventy_witness :
    (submitAssessment rmOneTask none "u" 1 1 0 0 95).map SubmitOutcome.passed =
      some (decide (70 ≤ 95)) :=
  submit_passed_iff_seventy.1 rmOneTask none "u" 1 1 0 0 95 oneTask rfl

/-- C5: a submission whose evaluated score is below 70 leaves the progress
document untouched (`completed_assessments` and `unlocked_days` unchanged),
triggers no unlock, and stores the assessment with attempt counter equal to
the previous attempt count plus one. -/
theorem failed_submit_frame :
    ∀ rm doc? uid pid day wi ti score t,
      getTask? rm wi ti = some t → score < 70 →
      submitAssessment rm doc? uid pid day wi ti score =
        some { roadmap := setTask rm wi ti
                 { t with assessment := some (submitRecord score t.assessment) }
               progress := doc?
               passed := false
               attempts := prevAttempts t + 1
               score := score
               unlock_result := none } := by
  intro rm doc? uid pid day wi ti score t ht hs
  have hp : decide (70 ≤ score) = false := decide_eq_false (Nat.not_le.mpr hs)
  simp only [submitAssessment, ht, hp, Bool.false_eq_true, if_false]
  simp [submitRecord_attempts, hp]

theorem failed_submit_frame_witness :
    submitAssessment rmOneTask (some docAfterDayOne) "u" 1 2 0 0 40 =
      some { roadmap := setTask rmOneTask 0 0
               { oneTask with assessment := some (submitRecord 40 oneTask.assessment) }
             progress := some docAfterDayOne
             passed := false
             attempts := prevAttempts oneTask + 1
             score := 40
             unlock_result := none } :=
  failed_submit_frame rmOneTask (some docAfterDayOne) "u" 1 2 0 0 40 oneTask rfl
    (by decide)

/-- C8 (amended): for every pair of analyses with `learning_velocity =
"fast"` whose risk level is neither `"high"` nor `"critical"`, the generated
adaptations include an `increase_challenge` difficulty change.  (When risk
is high or critical the `elif` picks the slow/risk branch instead: see the
counterexample.) -/
theorem fast_velocity_increases_challenge :
    ∀ pa da, pa.learning_velocity = "fast" →
      da.risk_level ≠ "high" → da.risk_level ≠ "critical" →
      Adaptation.mk "increase_challenge" ∈ (generateAdaptations pa da).difficulty_changes := by
  intro pa da hv hh hc
  simp only [generateAdaptations, hv]
  have h1 : ¬(("fast" : String) = "slow" ∨ da.risk_level = "high" ∨
      da.risk_level = "critical") := by
    push_neg
    exact ⟨by decide, hh, hc⟩
  rw [if_neg h1]
  split <;> simp

theorem fast_velocity_increases_challenge_witness :
    Adaptation.mk "increase_challenge" ∈ (generateAdaptations paFast daLow).difficulty_changes :=
  fast_velocity_increases_challenge paFast daLow rfl (by decide) (by decide)

/-- C8 counterexample: with fast learning velocity but high risk, the
generated adaptations contain no difficulty change at all — the claim fails
for this pair of analyses. -/
theorem fast_velocity_high_risk_counterexample :
    paFast.learning_velocity = "fast" ∧
    (generateAdaptations paFast daHigh).difficulty_changes = [] := by
  constructor
  · rfl
  · decide

/-- C9: under the interleaving model whose atomic steps are the three
database operations of a passing submission (`$addToSet` of the completed
day, the `find_one` snapshot read, the conditional `$set` of the unlocked
list), every one of the twenty schedules of two concurrent passing
submissions for day 3 ends with exactly one occurrence of day 3 in
`completed_assessments` and exactly one unlock of day 4 in
`unlocked_days`. -/
theorem concurrent_submissions_single_unlock :
    ∀ sched ∈ raceSchedules,
      (raceRun 3 sched raceInitDoc).completed_assessments.count 3 = 1 ∧
      (raceRun 3 sched raceInitDoc).unlocked_days.count 4 = 1 := by
  decide

theorem concurrent_submissions_single_unlock_witness :
    (raceRun 3 [false, false, false, true, true, true] raceInitDoc).completed_assessments.count 3 = 1 ∧
    (raceRun 3 [false, false, false, true, true, true] raceInitDoc).unlocked_days.count 4 = 1 :=
  concurrent_submissions_single_unlock [false, false, false, true, true, true] (by decide)

end PbscIgnite
